import Mathlib

/-!
Verification of the "Smart But Friendly Passwords" validator
(`smart_but_friendly_passwords.py`).

The Python module is embedded shallowly: each helper of the source becomes a
Lean definition of the same name (the leading underscore of the Python private
helpers is dropped), operating on `List Char`.  Python's Unicode-aware string
predicates (`str.islower`, `str.isupper`, `str.isdigit`, `str.isalpha`,
`str.isspace`, `str.lower`, `str.strip`, `string.punctuation`) are modelled at
their ASCII semantics, which is the alphabet the validator's rules are written
for.  Python's float division in the two ratio computations is modelled as
exact rational division in `ℚ`.
-/

/-- ASCII model of Python `str.isspace` / the characters removed by
`str.strip` (space, tab, newline, carriage return, vertical tab, form feed). -/
def pyIsSpaceCh (c : Char) : Bool :=
  c.toNat = 32 || c.toNat = 9 || c.toNat = 10 || c.toNat = 13 ||
  c.toNat = 11 || c.toNat = 12

/-- ASCII model of Python `str.islower` on a single character. -/
def pyIsLowerCh (c : Char) : Bool :=
  97 ≤ c.toNat && c.toNat ≤ 122

/-- ASCII model of Python `str.isupper` on a single character. -/
def pyIsUpperCh (c : Char) : Bool :=
  65 ≤ c.toNat && c.toNat ≤ 90

/-- ASCII model of Python `str.isdigit` on a single character. -/
def pyIsDigitCh (c : Char) : Bool :=
  48 ≤ c.toNat && c.toNat ≤ 57

/-- ASCII model of Python `str.isalpha` on a single character. -/
def pyIsAlphaCh (c : Char) : Bool :=
  pyIsLowerCh c || pyIsUpperCh c

/-- The 32 characters of Python `string.punctuation`
(`!"#$%&'()*+,-./:;<=>?@[\]^_`{|}~`): the printable ASCII characters that are
neither alphanumeric nor the space. -/
def pyIsPunctCh (c : Char) : Bool :=
  (33 ≤ c.toNat && c.toNat ≤ 47) || (58 ≤ c.toNat && c.toNat ≤ 64) ||
  (91 ≤ c.toNat && c.toNat ≤ 96) || (123 ≤ c.toNat && c.toNat ≤ 126)

/-- The symbol class of the source: `c in string.punctuation or c.isspace()`. -/
def pyIsSymbolCh (c : Char) : Bool :=
  pyIsPunctCh c || pyIsSpaceCh c

/-- ASCII model of Python `str.lower` on a single character. -/
def pyLowerChar (c : Char) : Char :=
  if 65 ≤ c.toNat && c.toNat ≤ 90 then Char.ofNat (c.toNat + 32) else c

/-- ASCII model of Python `str.lower`. -/
def pyLower (l : List Char) : List Char :=
  l.map pyLowerChar

/-- Model of Python `str.strip()`: remove leading and trailing whitespace. -/
def pyStrip (l : List Char) : List Char :=
  (((l.dropWhile pyIsSpaceCh).reverse.dropWhile pyIsSpaceCh)).reverse

/-- Python substring containment `sub in hay`: `sub` occurs contiguously in
`hay`. -/
def pyInStr (sub : List Char) : List Char → Bool
  | [] => sub.isEmpty
  | h :: rest => sub.isPrefixOf (h :: rest) || pyInStr sub rest

/-- The fixed banned-term set of `_validate_details` (source lines 105–108). -/
def banned_terms : List (List Char) :=
  ["password", "qwerty", "letmein", "welcome", "iloveyou",
   "dragon", "monkey", "admin", "login", "abc123"].map String.toList

/-- The ambiguous-character set of `_validate_details` (source line 115). -/
def ambiguous_chars : List Char :=
  "0Oo1lI|5S2Z8B6G9gQq".toList

/-- Embedding of `amb_count` of the source: how many characters lie in the ambiguous set. -/
def amb_count (pw : List Char) : Nat :=
  pw.countP (fun c => ambiguous_chars.contains c)

/-- Embedding of `amb_ratio` of the source: `amb_count / max(1, length)`, with Python's
float division modelled as the exact rational `mkRat` (the same value as
`(amb_count pw : ℚ) / (max 1 pw.length : ℚ)`, in a kernel-computable form). -/
def ambFrac (pw : List Char) : ℚ :=
  mkRat (amb_count pw) (max 1 pw.length)

/-- The source's float literal `0.60` as the exact rational 3/5. -/
def ratTh60 : ℚ := mkRat 6 10

/-- The source's float literal `0.30` as the exact rational 3/10. -/
def ratTh30 : ℚ := mkRat 3 10

/-- The source's float literal `0.2` as the exact rational 1/5. -/
def ratTh20 : ℚ := mkRat 2 10

/-- The per-character normalization of `_longest_linear_sequence`: letters are
mapped to lower case, every other character is kept as is. -/
def normChar (c : Char) : Char :=
  if pyIsAlphaCh c then pyLowerChar c else c

/-- The scan loop of `_longest_linear_sequence`: `prev` is the previous
(normalized) character, `cur` the current run length, `best` the best run seen,
`lastStep` the step (+1/−1) that the current run uses, if any. -/
def linSeqLoop : Char → Nat → Nat → Option Int → List Char → Nat
  | _, _, best, _, [] => best
  | prev, cur, best, lastStep, c :: rest =>
    let st : Int := (c.toNat : Int) - (prev.toNat : Int)
    if st = 1 ∨ st = -1 then
      let cur2 := if lastStep = some st then cur + 1 else 2
      linSeqLoop c cur2 (max best cur2) (some st) rest
    else
      linSeqLoop c 1 best none rest

/-- Embedding of `_longest_linear_sequence`: longest run of consecutive
characters stepping by +1 or −1 in code points, letters compared
case-insensitively; 0 for the empty string, otherwise at least 1. -/
def longest_linear_sequence (pw : List Char) : Nat :=
  match pw.map normChar with
  | [] => 0
  | c :: rest => linSeqLoop c 1 1 none rest

/-- The four keyboard rows of `_longest_keyboard_walk` (source lines 259–264). -/
def kb_rows : List (List Char) :=
  ["`1234567890-=", "qwertyuiop", "asdfghjkl", "zxcvbnm"].map String.toList

/-- The inner `j`-loop of `_longest_substring_on_line` at position `i`:
`for j in range(i + best + 1, min(n, i + 12) + 1)`, where the range bounds are
fixed from the value of `best` at loop entry, exactly as Python evaluates
them. -/
def los_inner (text line : List Char) (i best0 : Nat) : Nat :=
  (List.range' (i + best0 + 1) (min text.length (i + 12) + 1 - (i + best0 + 1))).foldl
    (fun best j =>
      if pyInStr ((text.drop i).take (j - i)) line then max best (j - i) else best)
    best0

/-- Embedding of `_longest_substring_on_line`: the longest contiguous
substring of `text` (windows capped at length 12) occurring contiguously in
`line`, with 1 as the floor. -/
def longest_substring_on_line (text line : List Char) : Nat :=
  (List.range text.length).foldl (fun best i => los_inner text line i best) 1

/-- Embedding of `_longest_keyboard_walk`: best match of the lowercased
candidate against each keyboard row and its reverse. -/
def longest_keyboard_walk (pw : List Char) : Nat :=
  let lowers := pyLower pw
  kb_rows.foldl
    (fun best row =>
      max (max best (longest_substring_on_line lowers row))
        (longest_substring_on_line lowers row.reverse))
    1

/-- The scan loop of `_max_same_char_run`. -/
def maxRunLoop : Char → Nat → Nat → List Char → Nat
  | _, _, best, [] => best
  | prev, cur, best, c :: rest =>
    if c = prev then maxRunLoop c (cur + 1) (max best (cur + 1)) rest
    else maxRunLoop c 1 best rest

/-- Embedding of `_max_same_char_run`: longest run of one repeated character
(1 even for the empty string, matching the Python initialisation). -/
def max_same_char_run (pw : List Char) : Nat :=
  match pw with
  | [] => 1
  | c :: rest => maxRunLoop c 1 1 rest

/-- The counting loop of Python `str.count` for a non-empty needle `d :: ds`:
scan left to right and count non-overlapping occurrences, skipping past each
occurrence found.  The `fuel` argument (initially the haystack length) only
funds the recursion: every step consumes at least one haystack character, so
the fuel never runs out before the haystack does. -/
def pyCountLoop (d : Char) (ds : List Char) : Nat → List Char → Nat
  | 0, _ => 0
  | _ + 1, [] => 0
  | fuel + 1, h :: rest =>
    if (d :: ds).isPrefixOf (h :: rest) then 1 + pyCountLoop d ds fuel (rest.drop ds.length)
    else pyCountLoop d ds fuel rest

/-- Python `hay.count(needle)`: number of non-overlapping occurrences, with
the Python convention `hay.count("") == len(hay) + 1`. -/
def pyCount (hay needle : List Char) : Nat :=
  match needle with
  | [] => hay.length + 1
  | d :: ds => pyCountLoop d ds hay.length hay

/-- Embedding of `_is_repeated_short_chunk`: exact tiling by a 1–3 character
chunk repeated ≥ 3 times, or (loose heuristic) the first 1–3 characters
occurring ≥ 3 times anywhere with `3 * len(chunk) ≤ len(pw)`. -/
def is_repeated_short_chunk (pw : List Char) : Bool :=
  let n := pw.length
  ([1, 2, 3].any fun k =>
    decide (n % k = 0) && decide (3 ≤ n / k) &&
      ((List.replicate (n / k) (pw.take k)).flatten == pw)) ||
  ([1, 2, 3].any fun k =>
    let chunk := pw.take k
    decide (3 ≤ pyCount pw chunk) && decide (chunk.length * 3 ≤ n))

/-- The tokenizer loop behind `alphaRuns`: `acc` holds the current alphabetic
run, reversed.  A non-letter (or the string end) closes the run, if any. -/
def alphaRunsAux : List Char → List Char → List (List Char)
  | acc, [] => if acc.isEmpty then [] else [acc.reverse]
  | acc, c :: rest =>
    if pyIsAlphaCh c then alphaRunsAux (c :: acc) rest
    else if acc.isEmpty then alphaRunsAux [] rest
    else acc.reverse :: alphaRunsAux [] rest

/-- Maximal alphabetic runs of a string, in order: the tokens produced by the
source's `re.findall(r"[A-Za-z]+", ...)` view of the string, equivalently the
non-empty tokens of `re.split(r"[^A-Za-z]+", ...)`. -/
def alphaRuns (l : List Char) : List (List Char) :=
  alphaRunsAux [] l

/-- The vowels of `_looks_like_consonant_smash`. -/
def vowel_chars : List Char := "aeiouAEIOU".toList

/-- Embedding of `_looks_like_consonant_smash`: some maximal alphabetic run
of length ≥ 7 (a match of `[A-Za-z]{7,}`) has vowel ratio strictly below 0.2,
the float division modelled in `ℚ`. -/
def looks_like_consonant_smash (pw : List Char) : Bool :=
  (alphaRuns pw).any fun t =>
    decide (7 ≤ t.length) &&
      decide (mkRat (t.countP fun c => vowel_chars.contains c) t.length < ratTh20)

/-- The word tokens of the source's intent detectors: the length-≥ 3 tokens of
`re.split(r"[^A-Za-z]+", pw)`, i.e. the maximal alphabetic runs of length ≥ 3. -/
def word_tokens (pw : List Char) : List (List Char) :=
  (alphaRuns pw).filter fun t => decide (3 ≤ t.length)

/-- Embedding of `_looks_like_passphrase`: at least two alphabetic tokens of
length ≥ 3. -/
def looks_like_passphrase (pw : List Char) : Bool :=
  decide (2 ≤ (word_tokens pw).length)

/-- Whether a list starts with an uppercase letter followed by at least two
lowercase letters: the test `re.findall(r"[A-Z][a-z]{2,}", ...)` applies at a
given position. -/
def camelHead (l : List Char) : Bool :=
  match l with
  | c :: a :: b :: _ => pyIsUpperCh c && pyIsLowerCh a && pyIsLowerCh b
  | _ => false

/-- The scan loop of `_camel_case_segments`: `inRun` records whether the scan
is inside the lowercase tail of a match already counted, mirroring the regex
engine's greedy consumption of `[a-z]{2,}` after a counted match. -/
def camelAux : Bool → List Char → Nat
  | _, [] => 0
  | inRun, c :: rest =>
    if inRun && pyIsLowerCh c then camelAux true rest
    else if camelHead (c :: rest) then 1 + camelAux true rest
    else camelAux false rest

/-- Embedding of `_camel_case_segments`: the number of matches of
`re.findall(r"[A-Z][a-z]{2,}", pw)`.  At a match (uppercase then ≥ 2
lowercase) the whole greedy match — the uppercase letter plus the maximal
following lowercase run — is consumed; otherwise the scan advances one
character. -/
def camel_case_segments (l : List Char) : Nat :=
  camelAux false l

/-- The CamelCase flag of `_validate_details` (source line 144):
`_camel_case_segments(pw) >= 2`. -/
def camel_flag (pw : List Char) : Bool :=
  decide (2 ≤ camel_case_segments pw)

/-- A word character in the sense of the regex metacharacter `\b` of
`re.search(r"\b(19|20)\d{2}\b", ...)`: a letter, a digit, or an underscore. -/
def isWordCh (c : Char) : Bool :=
  pyIsAlphaCh c || pyIsDigitCh c || c == '_'

/-- Whether the regex `\b(19|20)\d{2}\b` matches at the start of `w`, where
`prev` is the character immediately before `w` in the full string (`none` at
the string start): `w` starts with `19` or `20` followed by two digits, the
four digits are not preceded by a word character, and not followed by one. -/
def year_window (prev : Option Char) (w : List Char) : Bool :=
  match w with
  | c1 :: c2 :: c3 :: c4 :: rest =>
    (match prev with | none => true | some p => !isWordCh p) &&
    ((c1 == '1' && c2 == '9') || (c1 == '2' && c2 == '0')) &&
    pyIsDigitCh c3 && pyIsDigitCh c4 &&
    (match rest with | [] => true | y :: _ => !isWordCh y)
  | _ => false

/-- Whether `\b(19|20)\d{2}\d` matches at position `i` of `low`. -/
def year_at (low : List Char) (i : Nat) : Bool :=
  year_window (if i = 0 then none else (low.drop (i - 1)).head?) (low.drop i)

/-- The `has_year` test of `_has_word_plus_dateish`:
`re.search(r"\b(19|20)\d{2}\b", low)` succeeds, i.e. the pattern matches at
some position of `low`. -/
def has_year (low : List Char) : Bool :=
  (List.range low.length).any fun i => year_at low i

/-- The twelve month abbreviations of `_has_word_plus_dateish`. -/
def month_names : List (List Char) :=
  ["jan", "feb", "mar", "apr", "may", "jun",
   "jul", "aug", "sep", "oct", "nov", "dec"].map String.toList

/-- Embedding of `_has_word_plus_dateish`: a word token of length ≥ 3 exists,
the lowercased candidate has a boundary-delimited 19xx/20xx year or contains a
month abbreviation, and the longest linear sequence is below 4. -/
def has_word_plus_dateish (pw : List Char) : Bool :=
  decide (1 ≤ (word_tokens pw).length) &&
  (has_year (pyLower pw) || month_names.any fun m => pyInStr m (pyLower pw)) &&
  decide (longest_linear_sequence pw < 4)

/-- The meaningful-separator test of `_validate_details` (source line 146):
the candidate contains one of `-`, `_`, space, `.`. -/
def meaningful_separators (pw : List Char) : Bool :=
  "-_ .".toList.any fun sep => pw.contains sep

/-- The intent signal of `_validate_details` (source line 147):
passphrase-like, or CamelCase (≥ 2 segments), or word-plus-dateish. -/
def has_intent_signal (pw : List Char) : Bool :=
  looks_like_passphrase pw || camel_flag pw || has_word_plus_dateish pw

/-- Embedding of `variety_count` of the source: how many of the four character classes
(lower, upper, digit, symbol) are present. -/
def variety_count (pw : List Char) : ℤ :=
  (if pw.any pyIsLowerCh then 1 else 0) + (if pw.any pyIsUpperCh then 1 else 0) +
  (if pw.any pyIsDigitCh then 1 else 0) + (if pw.any pyIsSymbolCh then 1 else 0)

/-- The score assembly of `_validate_details` (source lines 156–196), as a
function of the stripped candidate: length points (the trailing `else`
branch of the source gives +4), variety points, intentionality rewards, and
penalties, accumulated exactly as in the source. -/
def score_of (pw : List Char) : ℤ :=
  (if 8 ≤ pw.length ∧ pw.length ≤ 9 then 1
   else if 10 ≤ pw.length ∧ pw.length ≤ 11 then 2
   else if 12 ≤ pw.length ∧ pw.length ≤ 15 then 3
   else 4) +
  min 3 (max 0 (variety_count pw - 1)) +
  (if looks_like_passphrase pw then 2 else 0) +
  (if camel_flag pw then 2 else 0) +
  (if has_word_plus_dateish pw then 1 else 0) +
  (if meaningful_separators pw && (looks_like_passphrase pw || camel_flag pw) then 1 else 0) -
  (if 4 ≤ longest_linear_sequence pw then 3 else 0) -
  (if 4 ≤ longest_keyboard_walk pw then 3 else 0) -
  (if is_repeated_short_chunk pw then 2 else 0) -
  (if 4 ≤ max_same_char_run pw then 2 else 0) -
  (if looks_like_consonant_smash pw then 2 else 0) -
  (if ratTh30 ≤ ambFrac pw ∧ ambFrac pw < ratTh60 then 1 else 0)

/-- The seven reason codes a Decision can carry. -/
inductive Reason where
  | too_short
  | banned_term
  | too_ambiguous
  | too_sequential
  | no_intent_signal
  | low_score
  | accepted
deriving DecidableEq, Repr

/-- The body of `_validate_details` after the initial `pw = pw.strip()`,
as a function of the stripped candidate: the four hard-reject checks in
source order, then the intent/score acceptance gate.  The diagnostic `info`
dictionary of the source is projected to its decision-relevant content, the
pair of the boolean and the reason code. -/
def validate_core (pw : List Char) : Bool × Reason :=
  if pw.length < 8 then (false, Reason.too_short)
  else if banned_terms.any (fun t => pyInStr t (pyLower pw)) then (false, Reason.banned_term)
  else if ratTh60 ≤ ambFrac pw then (false, Reason.too_ambiguous)
  else if 5 ≤ max (longest_linear_sequence pw) (longest_keyboard_walk pw) then
    (false, Reason.too_sequential)
  else if !has_intent_signal pw then (false, Reason.no_intent_signal)
  else if 3 ≤ score_of pw then (true, Reason.accepted)
  else (false, Reason.low_score)

/-- Embedding of `_validate_details`: strip the candidate, then evaluate. -/
def validate_details (pw : List Char) : Bool × Reason :=
  validate_core (pyStrip pw)

/-- Embedding of `is_valid_password`: the boolean part of the details. -/
def is_valid_password (pw : List Char) : Bool :=
  (validate_details pw).1

/-- Hard-reject condition 1 as a predicate of the raw candidate: the stripped
candidate is shorter than 8 characters. -/
def too_short_cond (pw : List Char) : Bool :=
  decide ((pyStrip pw).length < 8)

/-- Hard-reject condition 2: the stripped, lowercased candidate contains a
banned term. -/
def banned_cond (pw : List Char) : Bool :=
  banned_terms.any fun t => pyInStr t (pyLower (pyStrip pw))

/-- Hard-reject condition 3: ambiguous-character ratio at least 0.60. -/
def ambiguous_cond (pw : List Char) : Bool :=
  decide (ratTh60 ≤ ambFrac (pyStrip pw))

/-- Hard-reject condition 4: longest linear sequence or keyboard walk of
length at least 5. -/
def sequential_cond (pw : List Char) : Bool :=
  decide (5 ≤ max (longest_linear_sequence (pyStrip pw)) (longest_keyboard_walk (pyStrip pw)))

/-- A candidate passes the hard-reject gate when none of the four conditions
fires. -/
def passes_hard_gate (pw : List Char) : Bool :=
  !too_short_cond pw && !banned_cond pw && !ambiguous_cond pw && !sequential_cond pw

/-- The seven reason codes of the Decision record. -/
def reason_codes : List Reason :=
  [Reason.too_short, Reason.banned_term, Reason.too_ambiguous, Reason.too_sequential,
   Reason.no_intent_signal, Reason.low_score, Reason.accepted]

/-- The concrete candidate "admin" (a banned term, length 5). -/
def cexAdmin : List Char := "admin".toList

/-- The concrete candidate "Password123!". -/
def wPassword123 : List Char := "Password123!".toList

/-- The concrete candidate "qwerty12345" of the spec's scenario list. -/
def wQwerty12345 : List Char := "qwerty12345".toList

/-- The concrete candidate "  aaaa  ": raw length 8, trimmed length 4. -/
def wPadded : List Char := "  aaaa  ".toList

/-- The concrete candidate "BlueParrot!42" of the spec's scenario list. -/
def wBlueParrot : List Char := "BlueParrot!42".toList

/-- The concrete candidate "happy-biryani-2025!" of the spec's scenario list. -/
def wHappyBiryani : List Char := "happy-biryani-2025!".toList

/-- The concrete candidate "abc2024abc": a year glued to letters. -/
def cexAbcYear : List Char := "abc2024abc".toList

/-- The score formula exactly as claim C4 states it: the sum of the length
points (+1 for length 8–9, +2 for 10–11, +3 for 12–15, +4 for 16 and above),
the variety points, the three intentionality bonuses, the separator bonus,
and the six penalties. -/
def claim_score (pw : List Char) : ℤ :=
  ((if 8 ≤ pw.length ∧ pw.length ≤ 9 then 1 else 0) +
   (if 10 ≤ pw.length ∧ pw.length ≤ 11 then 2 else 0) +
   (if 12 ≤ pw.length ∧ pw.length ≤ 15 then 3 else 0) +
   (if 16 ≤ pw.length then 4 else 0)) +
  min 3 (max 0 (variety_count pw - 1)) +
  (if looks_like_passphrase pw then 2 else 0) +
  (if camel_flag pw then 2 else 0) +
  (if has_word_plus_dateish pw then 1 else 0) +
  (if meaningful_separators pw && (looks_like_passphrase pw || camel_flag pw) then 1 else 0) -
  (if 4 ≤ longest_linear_sequence pw then 3 else 0) -
  (if 4 ≤ longest_keyboard_walk pw then 3 else 0) -
  (if is_repeated_short_chunk pw then 2 else 0) -
  (if 4 ≤ max_same_char_run pw then 2 else 0) -
  (if looks_like_consonant_smash pw then 2 else 0) -
  (if ratTh30 ≤ ambFrac pw ∧ ambFrac pw < ratTh60 then 1 else 0)

/-- The claim's declarative CamelCase count: the number of positions carrying
an uppercase letter immediately followed by at least two lowercase letters.
Each substring matching "one uppercase letter followed by ≥ 2 lowercase
letters" that is maximal (extended over the whole following lowercase run) is
determined by such a position, and no two such segments overlap — everything
after a segment's first character is lowercase, so no other segment can start
inside it.  This count is therefore the number of CamelCase segments of the
candidate. -/
def camel_starts : List Char → Nat
  | c :: a :: b :: rest =>
    (if pyIsUpperCh c && pyIsLowerCh a && pyIsLowerCh b then 1 else 0) +
      camel_starts (a :: b :: rest)
  | _ => 0

/-- Modelled from claim C6's words: "the candidate contains a 4-digit year in
1900–2099 ... as a case-insensitive substring" — plain containment of a
window `19dd`/`20dd` (`d` a digit), with no condition on the neighbouring
characters.  The source's regex `\b(19|20)\d{2}\b` additionally requires word
boundaries; this definition exists to compare the claim's wording with the
source. -/
def spec_contains_year (low : List Char) : Bool :=
  (List.range low.length).any fun i =>
    match low.drop i with
    | c1 :: c2 :: c3 :: c4 :: _ =>
      ((c1 == '1' && c2 == '9') || (c1 == '2' && c2 == '0')) &&
        pyIsDigitCh c3 && pyIsDigitCh c4
    | _ => false

/-- Modelled from claim C6's words: word token of length ≥ 3 present, year or
month abbreviation as a substring, and longest linear sequence below 4. -/
def spec_word_plus_dateish (pw : List Char) : Bool :=
  decide (1 ≤ (word_tokens pw).length) &&
  (spec_contains_year (pyLower pw) ||
    month_names.any fun m => pyInStr m (pyLower pw)) &&
  decide (longest_linear_sequence pw < 4)

/-- Helper: whatever branch `validate_core` takes, the reason code is one of
the seven enumerated codes. -/
theorem validate_core_reason_mem (p : List Char) :
    (validate_core p).2 ∈ reason_codes := by
  unfold validate_core reason_codes
  split_ifs <;> simp

/-- Helper: the boolean of `validate_core` is `true` exactly on the
`accepted` branch. -/
theorem validate_core_fst_iff (p : List Char) :
    (validate_core p).1 = true ↔ (validate_core p).2 = Reason.accepted := by
  unfold validate_core
  split_ifs <;> simp

/-- Helper: the head of a `dropWhile` result never satisfies the predicate. -/
theorem head_not_of_dropWhile (p : Char → Bool) :
    ∀ l : List Char, ∀ x, (l.dropWhile p).head? = some x → p x = false := by
  intro l
  induction l with
  | nil => intro x hx; simp [List.dropWhile] at hx
  | cons a t ih =>
    intro x hx
    by_cases h : p a
    · exact ih x (by simpa [List.dropWhile, h] using hx)
    · simp only [List.dropWhile, h, if_false] at hx
      simp only [List.head?, Option.some.injEq] at hx
      rw [← hx]
      simpa using h

/-- Helper: a list whose head does not satisfy `p` is unchanged by
`dropWhile p`. -/
theorem dropWhile_of_head_not (p : Char → Bool) (l : List Char)
    (h : ∀ x, l.head? = some x → p x = false) : l.dropWhile p = l := by
  cases l with
  | nil => rfl
  | cons a t =>
    have := h a (by simp)
    simp [List.dropWhile, this]

/-- Helper: `dropWhile` removes an initial segment. -/
theorem exists_append_dropWhile (p : Char → Bool) :
    ∀ l : List Char, ∃ u, l = u ++ l.dropWhile p := by
  intro l
  induction l with
  | nil => exact ⟨[], rfl⟩
  | cons a t ih =>
    by_cases h : p a
    · obtain ⟨u, hu⟩ := ih
      exact ⟨a :: u, by simp [List.dropWhile, h]; exact hu⟩
    · exact ⟨[], by simp [List.dropWhile, h]⟩

/-- Stripping is idempotent: the stripped string has no whitespace at either
end, so stripping it again changes nothing. -/
theorem pyStrip_idem (l : List Char) : pyStrip (pyStrip l) = pyStrip l := by
  unfold pyStrip
  set p := pyIsSpaceCh with hp
  set m := l.dropWhile p with hm
  set r := m.reverse.dropWhile p with hr
  have hA : r.reverse.dropWhile p = r.reverse := by
    apply dropWhile_of_head_not
    intro x hx
    obtain ⟨u, hu⟩ := exists_append_dropWhile p m.reverse
    have hmu : m = r.reverse ++ u.reverse := by
      have := congrArg List.reverse hu
      simpa [List.reverse_append] using this
    cases hrv : r.reverse with
    | nil => rw [hrv] at hx; simp at hx
    | cons y ys =>
      rw [hrv] at hx
      simp only [List.head?, Option.some.injEq] at hx
      have hhead : m.head? = some y := by
        rw [hmu, hrv]; simp
      have := head_not_of_dropWhile p l y (by rw [← hm]; exact hhead)
      rw [← hx]; exact this
  have hB : r.dropWhile p = r := by
    apply dropWhile_of_head_not
    intro x hx
    exact head_not_of_dropWhile p m.reverse x (by rw [← hr]; exact hx)
  rw [hA, List.reverse_reverse, hB]

/-- C1, counterexample: the string "admin" contains the banned term "admin"
as a case-insensitive substring, yet the validator rejects it with
`too_short`, not `banned_term` — the claim's "regardless of the string's
length" fails, because the length check fires first. -/
theorem banned_term_not_first_cex :
    (banned_terms.any fun t => pyInStr t (pyLower cexAdmin)) = true
  ∧ (validate_details cexAdmin).2 = Reason.too_short
  ∧ Reason.too_short ≠ Reason.banned_term := by
  refine ⟨by decide, by decide, by decide⟩

/-- C1, amended: for every input string whose trimmed form has length at
least 8 and contains a banned term as a case-insensitive substring, the
validator rejects it with reason code `banned_term`. -/
theorem banned_term_rejects (pw : List Char)
    (h1 : too_short_cond pw = false) (h2 : banned_cond pw = true) :
    validate_details pw = (false, Reason.banned_term) := by
  simp only [too_short_cond, decide_eq_false_iff_not] at h1
  simp only [banned_cond] at h2
  unfold validate_details validate_core
  simp [h1, h2]

/-- Witness for `banned_term_rejects` at the concrete input "Password123!". -/
theorem banned_term_rejects_witness :
    validate_details wPassword123 = (false, Reason.banned_term) :=
  banned_term_rejects _ (by decide) (by decide)

/-- C2: the hard-reject gate evaluates too-short, banned-term, too-ambiguous
and too-sequential in this fixed order and the first matching condition gives
the reason code, whatever the later conditions do. -/
theorem hard_gate_first_match (pw : List Char) :
    (too_short_cond pw = true → (validate_details pw).2 = Reason.too_short)
  ∧ (too_short_cond pw = false → banned_cond pw = true →
      (validate_details pw).2 = Reason.banned_term)
  ∧ (too_short_cond pw = false → banned_cond pw = false → ambiguous_cond pw = true →
      (validate_details pw).2 = Reason.too_ambiguous)
  ∧ (too_short_cond pw = false → banned_cond pw = false → ambiguous_cond pw = false →
      sequential_cond pw = true → (validate_details pw).2 = Reason.too_sequential) := by
  unfold too_short_cond banned_cond ambiguous_cond sequential_cond validate_details validate_core
  refine ⟨fun h1 => ?_, fun h1 h2 => ?_, fun h1 h2 h3 => ?_, fun h1 h2 h3 h4 => ?_⟩
  · rw [if_pos (by simpa using h1)]
  · rw [if_neg (by simpa using h1), if_pos h2]
  · rw [if_neg (by simpa using h1), if_neg (by simp [h2]), if_pos (by simpa using h3)]
  · rw [if_neg (by simpa using h1), if_neg (by simp [h2]), if_neg (by simpa using h3),
      if_pos (by simpa using h4)]

/-- Witness for `hard_gate_first_match`: "qwerty12345" matches both the
banned-term and the too-sequential conditions, and the reported reason is the
first of the two in gate order. -/
theorem hard_gate_first_match_witness :
    banned_cond wQwerty12345 = true
  ∧ sequential_cond wQwerty12345 = true
  ∧ (validate_details wQwerty12345).2 = Reason.banned_term := by
  refine ⟨by decide, by decide,
    (hard_gate_first_match wQwerty12345).2.1 (by decide) (by decide)⟩

/-- C5, counterexample: "qwerty12345" is rejected with `banned_term`, not
with `too_sequential` as the claim states (the banned-term check fires
first). -/
theorem qwerty12345_cex :
    (validate_details wQwerty12345).2 = Reason.banned_term
  ∧ Reason.banned_term ≠ Reason.too_sequential := by
  refine ⟨by decide, by decide⟩

/-- C5, amended: the candidate "qwerty12345" is rejected, with reason code
`banned_term`. -/
theorem qwerty12345_rejected :
    validate_details wQwerty12345 = (false, Reason.banned_term) := by
  decide

/-- C8: the validator is total — on every input (the empty string included)
it yields a boolean and one of the seven reason codes, and the denominator of
the ambiguous-ratio division is positive on every input. -/
theorem validator_total (pw : List Char) :
    (validate_details pw).2 ∈ reason_codes ∧ 0 < max 1 (pyStrip pw).length := by
  exact ⟨validate_core_reason_mem _, by omega⟩

/-- C9: the decision only depends on the whitespace-trimmed candidate —
validating the trimmed string gives the same boolean and the same details as
validating the raw string — and an input whose trimmed form is shorter than 8
characters is rejected with `too_short` even when the raw input has length
at least 8. -/
theorem strip_invariance (pw : List Char) :
    is_valid_password (pyStrip pw) = is_valid_password pw
  ∧ validate_details (pyStrip pw) = validate_details pw
  ∧ (8 ≤ pw.length → (pyStrip pw).length < 8 →
      validate_details pw = (false, Reason.too_short)) := by
  refine ⟨?_, ?_, ?_⟩
  · unfold is_valid_password validate_details
    rw [pyStrip_idem]
  · unfold validate_details
    rw [pyStrip_idem]
  · intro _ h2
    unfold validate_details validate_core
    simp [h2]

/-- Witness for `strip_invariance`: "  aaaa  " has raw length 8 but trimmed
length 4, and is rejected with `too_short`. -/
theorem strip_invariance_witness :
    8 ≤ (wPadded).length ∧ (pyStrip wPadded).length < 8
  ∧ validate_details wPadded = (false, Reason.too_short) := by
  refine ⟨by decide, by decide,
    (strip_invariance wPadded).2.2 (by decide) (by decide)⟩

/-- C10: the boolean of the detailed validator is `true` exactly when the
reason code is `accepted`, and the reason code always lies in the seven-code
enumeration. -/
theorem accepted_iff_reason (pw : List Char) :
    ((validate_details pw).1 = true ↔ (validate_details pw).2 = Reason.accepted)
  ∧ (validate_details pw).2 ∈ reason_codes :=
  ⟨validate_core_fst_iff _, validate_core_reason_mem _⟩

/-- C3: past the hard-reject gate, the decision gate rejects with
`no_intent_signal` when no intent flag holds, regardless of score; otherwise
it accepts exactly when the score is at least 3, and rejects with
`low_score` when the score is below 3. -/
theorem decision_gate (pw : List Char) (h : passes_hard_gate pw = true) :
    (has_intent_signal (pyStrip pw) = false →
      validate_details pw = (false, Reason.no_intent_signal))
  ∧ (has_intent_signal (pyStrip pw) = true →
      (validate_details pw = (true, Reason.accepted) ↔ 3 ≤ score_of (pyStrip pw)))
  ∧ (has_intent_signal (pyStrip pw) = true → score_of (pyStrip pw) < 3 →
      validate_details pw = (false, Reason.low_score)) := by
  unfold passes_hard_gate too_short_cond banned_cond ambiguous_cond sequential_cond at h
  simp only [Bool.and_eq_true, Bool.not_eq_true'] at h
  obtain ⟨⟨⟨h1, h2⟩, h3⟩, h4⟩ := h
  unfold validate_details validate_core
  rw [if_neg (by simpa using h1), if_neg (by simp [h2]), if_neg (by simpa using h3),
    if_neg (by simpa using h4)]
  refine ⟨fun hi => ?_, fun hi => ?_, fun hi hs => ?_⟩
  · rw [if_pos (by simp [hi])]
  · constructor
    · intro hacc
      by_cases hsc : 3 ≤ score_of (pyStrip pw)
      · exact hsc
      · rw [if_neg (by simp [hi]), if_neg hsc] at hacc
        simp at hacc
    · intro hsc
      rw [if_neg (by simp [hi]), if_pos hsc]
  · rw [if_neg (by simp [hi]), if_neg (by omega)]

/-- Witness for `decision_gate`: "BlueParrot!42" passes the gate, carries an
intent signal, and is accepted with score at least 3. -/
theorem decision_gate_witness :
    passes_hard_gate wBlueParrot = true
  ∧ has_intent_signal (pyStrip wBlueParrot) = true
  ∧ validate_details wBlueParrot = (true, Reason.accepted) := by
  refine ⟨by decide, by decide, ?_⟩
  exact ((decision_gate wBlueParrot (by decide)).2.1 (by decide)).mpr (by decide)

/-- C4: for a candidate that passes the hard-reject gate, the score computed
by the validator equals the claim's component sum. -/
theorem score_matches_claim (pw : List Char) (h : passes_hard_gate pw = true) :
    score_of (pyStrip pw) = claim_score (pyStrip pw) := by
  have hlen : 8 ≤ (pyStrip pw).length := by
    unfold passes_hard_gate too_short_cond at h
    simp only [Bool.and_eq_true, Bool.not_eq_true'] at h
    have h1 : decide ((pyStrip pw).length < 8) = false := h.1.1.1
    have : ¬ ((pyStrip pw).length < 8) := by simpa using h1
    omega
  unfold score_of claim_score
  have e : (if 8 ≤ (pyStrip pw).length ∧ (pyStrip pw).length ≤ 9 then (1 : ℤ)
      else if 10 ≤ (pyStrip pw).length ∧ (pyStrip pw).length ≤ 11 then 2
      else if 12 ≤ (pyStrip pw).length ∧ (pyStrip pw).length ≤ 15 then 3 else 4)
      = ((if 8 ≤ (pyStrip pw).length ∧ (pyStrip pw).length ≤ 9 then (1 : ℤ) else 0) +
         (if 10 ≤ (pyStrip pw).length ∧ (pyStrip pw).length ≤ 11 then 2 else 0) +
         (if 12 ≤ (pyStrip pw).length ∧ (pyStrip pw).length ≤ 15 then 3 else 0) +
         (if 16 ≤ (pyStrip pw).length then 4 else 0)) := by
    split_ifs <;> omega
  rw [e]

/-- Witness for `score_matches_claim` at "happy-biryani-2025!". -/
theorem score_matches_claim_witness :
    passes_hard_gate wHappyBiryani = true
  ∧ score_of (pyStrip wHappyBiryani)
      = claim_score (pyStrip wHappyBiryani) := by
  refine ⟨by decide, score_matches_claim wHappyBiryani (by decide)⟩

/-- Helper: a position that is not uppercase cannot start a CamelCase
segment. -/
theorem camel_starts_cons_not_upper (x : Char) (xs : List Char)
    (h : pyIsUpperCh x = false) : camel_starts (x :: xs) = camel_starts xs := by
  match xs with
  | [] => rfl
  | [a] => rfl
  | a :: b :: t => simp [camel_starts, h]

/-- Helper: the greedy regex scan counts exactly the positions where an
uppercase letter is followed by two lowercase letters, whatever state the
scan starts in. -/
theorem camelAux_eq_starts :
    ∀ l : List Char, ∀ b : Bool, camelAux b l = camel_starts l := by
  intro l
  induction l with
  | nil => intro b; cases b <;> rfl
  | cons c rest ih =>
    intro b
    by_cases hc : pyIsLowerCh c = true
    · have hcu : pyIsUpperCh c = false := by
        cases hcu : pyIsUpperCh c
        · rfl
        · exfalso
          simp only [pyIsLowerCh, pyIsUpperCh, Bool.and_eq_true, decide_eq_true_eq] at hc hcu
          omega
      have hch : camelHead (c :: rest) = false := by
        match rest with
        | [] => rfl
        | [a] => rfl
        | a :: b2 :: t => simp [camelHead, hcu]
      rw [camel_starts_cons_not_upper c rest hcu]
      cases b
      · simp [camelAux, hch, ih]
      · simp [camelAux, hc, hch, ih]
    · have hc2 : pyIsLowerCh c = false := by
        cases h2 : pyIsLowerCh c
        · rfl
        · exact absurd h2 hc
      cases hh : camelHead (c :: rest)
      · have step : camelAux b (c :: rest) = camelAux false rest := by
          cases b <;> simp [camelAux, hc2, hh]
        rw [step, ih false]
        rcases rest with _ | ⟨a, _ | ⟨b2, t⟩⟩
        · rfl
        · rfl
        · have hcond : (pyIsUpperCh c && pyIsLowerCh a && pyIsLowerCh b2) = false := by
            simpa [camelHead] using hh
          simp [camel_starts, hcond]
      · rcases rest with _ | ⟨a, _ | ⟨b2, t⟩⟩
        · simp [camelHead] at hh
        · simp [camelHead] at hh
        · have hcond : (pyIsUpperCh c && pyIsLowerCh a && pyIsLowerCh b2) = true := by
            simpa [camelHead] using hh
          have step : camelAux b (c :: a :: b2 :: t) = 1 + camelAux true (a :: b2 :: t) := by
            cases b <;> simp [camelAux, hc2, camelHead, hcond]
          rw [step, ih true]
          simp [camel_starts, hcond]

/-- C7: the CamelCase segment count of the source equals the number of
CamelCase substrings of the candidate (maximal matches of "one uppercase
letter then ≥ 2 lowercase letters", identified by their start positions),
and the CamelCase flag holds exactly when this count is at least 2. -/
theorem camel_count_matches (pw : List Char) :
    camel_case_segments pw = camel_starts pw
  ∧ (camel_flag pw = true ↔ 2 ≤ camel_starts pw) := by
  have h := camelAux_eq_starts pw false
  refine ⟨h, ?_⟩
  simp [camel_flag, camel_case_segments, h]

/-- C6, counterexample: "abc2024abc" contains the year 2024 as a substring,
has the word token "abc", contains no month name and no linear sequence of
length 4, so the claim says the detector fires — but the source's
word-boundary regex does not match (the year digits are glued to letters on
both sides), and the detector returns false. -/
theorem word_plus_dateish_cex :
    spec_word_plus_dateish cexAbcYear = true
  ∧ has_word_plus_dateish cexAbcYear = false := by
  refine ⟨by decide, by decide⟩

/-- Helper: a match of the year pattern needs at least four characters, so no
match starts at or beyond the end of the string. -/
theorem year_at_oob (low : List Char) (i : Nat) (h : low.length ≤ i) :
    year_at low i = false := by
  unfold year_at
  rw [List.drop_eq_nil_of_le h]
  rfl

/-- Helper: the regex search for `\b(19|20)\d{2}\b` succeeds exactly when the
pattern matches at some position. -/
theorem has_year_iff (low : List Char) :
    has_year low = true ↔ ∃ i, year_at low i = true := by
  unfold has_year
  rw [List.any_eq_true]
  constructor
  · rintro ⟨i, _, hi⟩
    exact ⟨i, hi⟩
  · rintro ⟨i, hi⟩
    by_cases h : i < low.length
    · exact ⟨i, List.mem_range.mpr h, hi⟩
    · rw [year_at_oob low i (by omega)] at hi
      exact absurd hi (by simp)

/-- Helper: there is a word token exactly when some alphabetic run has length
at least 3. -/
theorem filter_pos_iff {α : Type} (p : α → Bool) :
    ∀ l : List α, 1 ≤ (l.filter p).length ↔ ∃ t ∈ l, p t = true := by
  intro l
  induction l with
  | nil => simp
  | cons a t ih =>
    by_cases h : p a
    · rw [List.filter_cons_of_pos h]
      constructor
      · intro _
        exact ⟨a, by simp, h⟩
      · intro _
        simp
    · rw [List.filter_cons_of_neg h]
      rw [ih]
      constructor
      · rintro ⟨x, hx, hpx⟩
        exact ⟨x, by simp [hx], hpx⟩
      · rintro ⟨x, hx, hpx⟩
        rcases List.mem_cons.mp hx with rfl | hx2
        · exact absurd hpx (by simp [h])
        · exact ⟨x, hx2, hpx⟩

theorem word_tokens_pos_iff (pw : List Char) :
    1 ≤ (word_tokens pw).length ↔ ∃ t ∈ alphaRuns pw, 3 ≤ t.length := by
  unfold word_tokens
  rw [filter_pos_iff]
  simp

/-- C6, amended: the word-plus-dateish detector returns true iff (a) some
alphabetic token of length ≥ 3 exists, (b) the lowercased candidate contains
a 4-digit year 19xx/20xx delimited by word boundaries (not adjacent to a
letter, a digit or an underscore) or contains a 3-letter month abbreviation
as a substring, and (c) the longest linear sequence is below 4. -/
theorem word_plus_dateish_iff (pw : List Char) :
    has_word_plus_dateish pw = true ↔
      ((∃ t ∈ alphaRuns pw, 3 ≤ t.length)
       ∧ ((∃ i, year_at (pyLower pw) i = true)
          ∨ ∃ m ∈ month_names, pyInStr m (pyLower pw) = true)
       ∧ longest_linear_sequence pw < 4) := by
  unfold has_word_plus_dateish
  simp only [Bool.and_eq_true, Bool.or_eq_true, decide_eq_true_eq, List.any_eq_true,
    and_assoc, word_tokens_pos_iff, has_year_iff]
